import Mathlib

/-!
# CyberAttackDetectionAI agent: command path and event ordering

A shallow embedding of the parts of `src/agent` that the specification talks
about:

* `types.hpp`: `Command`, `CommandResult`, `NetworkPacket`, `SecurityEvent`
  (with its `operator<`), `Threat`;
* `command_executor.hpp`: the `sanitize` lambda and `buildSecureCommandLine`;
* `agent.cpp`: `ALLOWED_COMMANDS`, `validateCommand`, the command listener;
* `ids/ids_engine.{hpp,cpp}`: `Rule`, `analyzeTraffic`;
* `xdr/correlation_engine.hpp`: the `eventQueue` member, a
  `std::priority_queue`, with the heap routines of the standard library.

`IDSEngine::addRule`, `CorrelationEngine::correlateEvents` and
`CorrelationEngine::detectThreats` are declared in the sources and defined
nowhere; they follow the specification and are marked as such.

`std::string` is embedded as `String` (a sequence of characters compared
exactly), `int` and the tick count of a `time_point` as `Int`, `uint16_t`
as `Nat`.
-/

namespace CyberAgent

/-! ## `types.hpp` -/

/-- The `Command` struct of `types.hpp`. -/
structure Command where
  baseCommand : String
  arguments : String
  signature : String
  deriving DecidableEq, Repr

/-- The `CommandResult` struct of `types.hpp`. -/
structure CommandResult where
  output : String
  exitCode : Int
  error : String
  deriving DecidableEq, Repr

/-- The `NetworkPacket` struct of `types.hpp`; `data` holds the raw bytes. -/
structure NetworkPacket where
  data : List Nat
  sourceIP : String
  destIP : String
  sourcePort : Nat
  destPort : Nat
  protocol : String
  deriving DecidableEq, Repr

/-- The `SecurityEvent` struct of `types.hpp`.  The `timestamp` is the tick
count of the `system_clock::time_point`. -/
structure SecurityEvent where
  id : String
  type : String
  description : String
  severity : Int
  timestamp : Int
  deriving DecidableEq, Repr

/-- The member `SecurityEvent::operator<`: `return timestamp < other.timestamp;`. -/
def SecurityEvent.lt (self other : SecurityEvent) : Bool :=
  decide (self.timestamp < other.timestamp)

/-- The condition of the `if` inside the `sanitize` lambda:
`isalnum(c) || c == ' ' || c == '-' || c == '/' || c == '.' || c == ':'`.
No locale is ever installed by the program, so `isalnum` is the "C" locale
one: ASCII letters and ASCII digits; no character outside ASCII is
alphanumeric there, as none is for `Char.isAlphanum`. -/
def sanitizeKeeps (c : Char) : Bool :=
  c.isAlphanum || c == ' ' || c == '-' || c == '/' || c == '.' || c == ':'

/-- The loop of the `sanitize` lambda over the characters of the input:
`for (char c : input) if (...) safe += c;`, the result being the characters
appended to `safe`, in order. -/
def sanitizeLoop : List Char → List Char
  | [] => []
  | c :: rest => if sanitizeKeeps c then c :: sanitizeLoop rest else sanitizeLoop rest

/-- The `sanitize` lambda of `buildSecureCommandLine`. -/
def sanitize (input : String) : String :=
  String.mk (sanitizeLoop input.data)

/-- The method `CommandExecutor::buildSecureCommandLine`:
`return sanitize(cmd.baseCommand + " " + cmd.arguments);`. -/
def buildSecureCommandLine (cmd : Command) : String :=
  sanitize (cmd.baseCommand ++ " " ++ cmd.arguments)

/-! ## `agent.cpp` -/

/-- The whitelist `SecurityAgent::ALLOWED_COMMANDS`.  The C++ container is an
`unordered_set<std::string>`; only membership is ever asked of it. -/
def ALLOWED_COMMANDS : List String :=
  ["netstat", "tasklist", "systeminfo", "ipconfig",
   "dir", "ping", "tracert", "route", "arp"]

/-- The method `SecurityAgent::validateCommand`:
`ALLOWED_COMMANDS.find(cmd.baseCommand) != ALLOWED_COMMANDS.end() &&
validateSignature(cmd.signature)`.  `EncryptionService::validateSignature` is
only declared in the sources, so it is a parameter. -/
def validateCommand (validateSignature : String → Bool) (cmd : Command) : Bool :=
  ALLOWED_COMMANDS.contains cmd.baseCommand && validateSignature cmd.signature

/-- What the command listener does to the outside world. -/
inductive Effect where
  /-- `CreateProcessA` called by `CommandExecutor::execute` with this command line. -/
  | createProcess (cmdLine : String)
  /-- `NetworkManager::sendToServer` called with this payload. -/
  | sendToServer (data : String)
  deriving DecidableEq, Repr

/-- The collaborators of the listener that the sources only declare or that
live outside the program: the signature check, the process run by
`CreateProcessA` (its collected output and exit code) and
`EncryptionService::encryptData`. -/
structure Collaborators where
  validateSignature : String → Bool
  runProcess : String → CommandResult
  encryptData : CommandResult → String

/-- The method `CommandExecutor::execute`, reached through
`SecurityAgent::executeCommand`: the command line is built by
`buildSecureCommandLine` and given to `CreateProcessA`; the result carries the
output read from the pipe and the exit code. -/
def execute (env : Collaborators) (cmd : Command) : List Effect × CommandResult :=
  let cmdLine := buildSecureCommandLine cmd
  ([Effect.createProcess cmdLine], env.runProcess cmdLine)

/-- The callback installed by `SecurityAgent::startCommandListener`:
`if (validateCommand(cmd)) { auto result = executeCommand(cmd);
sendCommandResponse(result); }`.  The value is the list of effects, in order. -/
def commandListener (env : Collaborators) (cmd : Command) : List Effect :=
  if validateCommand env.validateSignature cmd then
    let r := execute env cmd
    r.1 ++ [Effect.sendToServer (env.encryptData r.2)]
  else
    []

/-- The listener handed `cmd` to the executor: a process was created. -/
def handedToExecutor (env : Collaborators) (cmd : Command) : Bool :=
  (commandListener env cmd).any fun e =>
    match e with
    | Effect.createProcess _ => true
    | Effect.sendToServer _ => false

/-! ## `xdr/correlation_engine.hpp`: the event queue

`CorrelationEngine::eventQueue` is a `std::priority_queue<SecurityEvent>` with
the default container `std::vector` and the default comparator
`std::less<SecurityEvent>`, which calls `SecurityEvent::operator<`.  The
adaptor is the binary heap of the standard library: `push` is `push_back`
followed by `std::push_heap`, `pop` is `std::pop_heap` followed by `pop_back`,
`top` is `front`.  The two heap routines are embedded as libstdc++ writes them
(`bits/stl_heap.h`), the vector as a list. -/

/-- The underlying vector `c` of a `std::priority_queue<SecurityEvent>`. -/
abbrev EventQueue := List SecurityEvent

/-- The loop of `std::__push_heap(first, holeIndex, topIndex, value, comp)`:
`parent = (holeIndex - 1) / 2;
while (holeIndex > topIndex && comp(first + parent, value))
{ first[holeIndex] = first[parent]; holeIndex = parent; parent = (holeIndex - 1) / 2; }
first[holeIndex] = value;`.
Every round makes `holeIndex` smaller, so `holeIndex` rounds of fuel are
enough (`pushHeapLoop_fuel`). -/
def pushHeapLoop : Nat → EventQueue → Nat → Nat → SecurityEvent → EventQueue
  | 0, c, holeIndex, _, value => c.set holeIndex value
  | fuel + 1, c, holeIndex, topIndex, value =>
    let parent := (holeIndex - 1) / 2
    if decide (topIndex < holeIndex) && (c.getD parent value).lt value then
      pushHeapLoop fuel (c.set holeIndex (c.getD parent value)) parent topIndex value
    else
      c.set holeIndex value

/-- The routine `std::__push_heap`. -/
def pushHeap (c : EventQueue) (holeIndex topIndex : Nat) (value : SecurityEvent) :
    EventQueue :=
  pushHeapLoop holeIndex c holeIndex topIndex value

/-- The `while` loop of `std::__adjust_heap(first, holeIndex, len, value, comp)`:
`while (secondChild < (len - 1) / 2)
{ secondChild = 2 * (secondChild + 1);
  if (comp(first + secondChild, first + (secondChild - 1))) secondChild--;
  first[holeIndex] = first[secondChild]; holeIndex = secondChild; }`.
The value is the vector with `holeIndex` and `secondChild` after the loop.
Every round makes `secondChild` larger, so `len` rounds of fuel are enough. -/
def adjustHeapLoop : Nat → EventQueue → Nat → Nat → Nat → SecurityEvent →
    EventQueue × Nat × Nat
  | 0, c, holeIndex, secondChild, _, _ => (c, holeIndex, secondChild)
  | fuel + 1, c, holeIndex, secondChild, len, value =>
    if secondChild < (len - 1) / 2 then
      let child := 2 * (secondChild + 1)
      let child :=
        if (c.getD child value).lt (c.getD (child - 1) value) then child - 1 else child
      adjustHeapLoop fuel (c.set holeIndex (c.getD child value)) child child len value
    else
      (c, holeIndex, secondChild)

/-- The routine `std::__adjust_heap`: the loop above, then
`if ((len & 1) == 0 && secondChild == (len - 2) / 2)
{ secondChild = 2 * (secondChild + 1);
  first[holeIndex] = first[secondChild - 1]; holeIndex = secondChild - 1; }
std::__push_heap(first, holeIndex, topIndex, value, comp);`.
It is only called with `1 ≤ len`. -/
def adjustHeap (c : EventQueue) (holeIndex len : Nat) (value : SecurityEvent) : EventQueue :=
  let topIndex := holeIndex
  let r := adjustHeapLoop len c holeIndex holeIndex len value
  if len % 2 == 0 && r.2.2 == (len - 2) / 2 then
    let child := 2 * (r.2.2 + 1)
    pushHeap (r.1.set r.2.1 (r.1.getD (child - 1) value)) (child - 1) topIndex value
  else
    pushHeap r.1 r.2.1 topIndex value

/-- The method `priority_queue::empty`. -/
def EventQueue.empty (q : EventQueue) : Bool := q.isEmpty

/-- The method `priority_queue::push`: `c.push_back(x);
std::push_heap(c.begin(), c.end(), comp);`, where `push_heap` calls
`__push_heap(first, (last - first) - 1, 0, value, comp)` with `value` the
element just appended. -/
def EventQueue.push (q : EventQueue) (e : SecurityEvent) : EventQueue :=
  pushHeap (q ++ [e]) q.length 0 e

/-- The method `priority_queue::top`: `c.front()`; `none` on an empty queue,
where the call is undefined in C++. -/
def EventQueue.top (q : EventQueue) : Option SecurityEvent := q.head?

/-- The method `priority_queue::pop`: `std::pop_heap(c.begin(), c.end(), comp);
c.pop_back();`.  `pop_heap` does nothing unless `last - first > 1`; otherwise
`__pop_heap` saves the last element as `value`, stores the first element in
the last place and calls `__adjust_heap(first, 0, last - first - 1, value)`. -/
def EventQueue.pop (q : EventQueue) : EventQueue :=
  match q.head?, q.getLast? with
  | some front, some value =>
    if 1 < q.length then
      (adjustHeap (q.set (q.length - 1) front) 0 (q.length - 1) value).dropLast
    else
      q.dropLast
  | _, _ => q

/-- The consumer loop `while (!q.empty()) { out.push_back(q.top()); q.pop(); }`,
run for at most `fuel` rounds. -/
def EventQueue.drainLoop : Nat → EventQueue → List SecurityEvent
  | 0, _ => []
  | fuel + 1, q =>
    match EventQueue.top q with
    | none => []
    | some m => m :: EventQueue.drainLoop fuel (EventQueue.pop q)

/-- Taking and removing the top until the queue is empty; every `pop` removes
one element, so one round per element is enough fuel. -/
def EventQueue.drain (q : EventQueue) : List SecurityEvent :=
  EventQueue.drainLoop q.length q

/-- Pushing a sequence of events, in arrival order, into an empty queue. -/
def EventQueue.pushAll (events : List SecurityEvent) : EventQueue :=
  events.foldl EventQueue.push []

/-! ## `ids/ids_engine.hpp`, `ids/ids_engine.cpp` -/

/-- The struct `IDSEngine::Rule`. -/
structure Rule where
  id : String
  description : String
  severity : Int
  pattern : String
  deriving DecidableEq, Repr

/-- The data of an `IDSEngine`: its rule vector.  The two monitor handles
point at classes without data members and are left out. -/
structure IDSEngine where
  rules : List Rule
  deriving DecidableEq, Repr

/-- The constructor `IDSEngine::IDSEngine()`: the rule vector starts empty. -/
def IDSEngine.new : IDSEngine := ⟨[]⟩

/-- The method `IDSEngine::analyzeTraffic` of `ids_engine.cpp`:
`void IDSEngine::analyzeTraffic(const NetworkPacket& packet) { }`, the body
holding only the comment `// Implement traffic analysis`.  A `void` member
function can act on the engine alone; the value is the engine afterwards. -/
def IDSEngine.analyzeTraffic (self : IDSEngine) (_packet : NetworkPacket) : IDSEngine :=
  self

/-- The failures of `add(rule)` in section 4.1 of the specification. -/
inductive RuleError where
  | DuplicateId
  | InvalidPattern
  | SeverityOutOfRange
  deriving DecidableEq, Repr

/-- Modelled from the spec: `IDSEngine::addRule`, declared in `ids_engine.hpp`
and defined nowhere.  Section 4.1: "fails with `DuplicateId` if id exists,
`InvalidPattern` if the pattern fails to compile, `SeverityOutOfRange`" for a
severity outside the scale, which section 3 gives as 0 to 10; otherwise the
rule is activated.  Which patterns compile is not said anywhere and is a
parameter. -/
def IDSEngine.addRule (patternCompiles : String → Bool) (self : IDSEngine) (rule : Rule) :
    Except RuleError IDSEngine :=
  if self.rules.any fun r => r.id == rule.id then
    Except.error RuleError.DuplicateId
  else if !patternCompiles rule.pattern then
    Except.error RuleError.InvalidPattern
  else if rule.severity < 0 ∨ 10 < rule.severity then
    Except.error RuleError.SeverityOutOfRange
  else
    Except.ok { self with rules := self.rules ++ [rule] }

/-! ## The Correlation Engine of the specification

`CorrelationEngine::correlateEvents` and `detectThreats` are declared in
`correlation_engine.hpp` and defined nowhere in the sources.  The definitions
of this section follow section 4.4 of the specification instead. -/

/-- The characters the specification lets through, in its own words: "an
ASCII letter, an ASCII digit, or one of space, `-`, `/`, `.`, `:`". -/
def isAllowedCharacter (c : Char) : Bool :=
  decide (('A'.toNat ≤ c.toNat ∧ c.toNat ≤ 'Z'.toNat) ∨
      ('a'.toNat ≤ c.toNat ∧ c.toNat ≤ 'z'.toNat) ∨
      ('0'.toNat ≤ c.toNat ∧ c.toNat ≤ '9'.toNat) ∨
      c ∈ [' ', '-', '/', '.', ':'])

/-- The shell metacharacters the specification names: `&`, `|`, `;`, `<`, `>`,
the double quote (34), the single quote (39), the backquote (96), `$`, `%`,
`^`, the two parentheses and the newline (10). -/
def shellMetacharacters : List Char :=
  ['&', '|', ';', '<', '>', Char.ofNat 34, Char.ofNat 39, Char.ofNat 96,
   '$', '%', '^', '(', ')', Char.ofNat 10]

/-! # Theorems -/

/-! ## Characters -/

theorem isAlphanum_iff_toNat (c : Char) :
    c.isAlphanum = true ↔
      ((65 ≤ c.toNat ∧ c.toNat ≤ 90) ∨ (97 ≤ c.toNat ∧ c.toNat ≤ 122) ∨
        (48 ≤ c.toNat ∧ c.toNat ≤ 57)) := by
  simp only [Char.isAlphanum, Char.isAlpha, Char.isUpper, Char.isLower, Char.isDigit,
    Bool.or_eq_true, Bool.and_eq_true, decide_eq_true_eq, ge_iff_le, Char.toNat,
    UInt32.le_def, BitVec.le_def]
  have h65 : (UInt32.toBitVec 65).toNat = 65 := rfl
  have h90 : (UInt32.toBitVec 90).toNat = 90 := rfl
  have h97 : (UInt32.toBitVec 97).toNat = 97 := rfl
  have h122 : (UInt32.toBitVec 122).toNat = 122 := rfl
  have h48 : (UInt32.toBitVec 48).toNat = 48 := rfl
  have h57 : (UInt32.toBitVec 57).toNat = 57 := rfl
  rw [h65, h90, h97, h122, h48, h57]
  have hv : c.val.toBitVec.toNat = c.val.toNat := rfl
  rw [hv]
  tauto

theorem char_eq_iff_toNat (c d : Char) : c = d ↔ c.toNat = d.toNat := by
  constructor
  · rintro rfl; rfl
  · intro h
    apply Char.ext
    cases c with | mk cv hc =>
    cases d with | mk dv hd =>
    cases cv with | mk cb =>
    cases dv with | mk db =>
    simp only [Char.toNat, UInt32.toNat] at h
    have hb := BitVec.eq_of_toNat_eq h
    subst hb
    rfl

/-- The test of the source and the class of the specification are the same
predicate. -/
theorem sanitizeKeeps_eq_isAllowedCharacter (c : Char) :
    sanitizeKeeps c = isAllowedCharacter c := by
  rw [Bool.eq_iff_iff]
  simp only [sanitizeKeeps, isAllowedCharacter, Bool.or_eq_true, beq_iff_eq,
    decide_eq_true_eq, List.mem_cons, List.mem_singleton, List.not_mem_nil, or_false,
    isAlphanum_iff_toNat, char_eq_iff_toNat c]
  have hA : ('A' : Char).toNat = 65 := rfl
  have hZ : ('Z' : Char).toNat = 90 := rfl
  have ha : ('a' : Char).toNat = 97 := rfl
  have hz : ('z' : Char).toNat = 122 := rfl
  have h0 : ('0' : Char).toNat = 48 := rfl
  have h9 : ('9' : Char).toNat = 57 := rfl
  rw [hA, hZ, ha, hz, h0, h9]
  tauto

/-! ## The sanitizer -/

theorem sanitizeLoop_eq_filter (l : List Char) : sanitizeLoop l = l.filter sanitizeKeeps := by
  induction l with
  | nil => rfl
  | cons c rest ih =>
    by_cases h : sanitizeKeeps c = true
    · simp [sanitizeLoop, List.filter_cons, h, ih]
    · simp [sanitizeLoop, List.filter_cons, h, ih]

theorem sanitize_data (s : String) : (sanitize s).data = s.data.filter sanitizeKeeps := by
  simp [sanitize, sanitizeLoop_eq_filter]

theorem sanitize_append (s t : String) : sanitize (s ++ t) = sanitize s ++ sanitize t := by
  apply String.ext
  simp [sanitize_data, String.data_append]

theorem sanitize_eq_self_of_all (s : String) (h : ∀ c ∈ s.data, sanitizeKeeps c = true) :
    sanitize s = s := by
  apply String.ext
  rw [sanitize_data]
  exact List.filter_eq_self.mpr h

theorem mem_sanitize_keeps (s : String) (c : Char) (h : c ∈ (sanitize s).data) :
    sanitizeKeeps c = true := by
  rw [sanitize_data] at h
  exact (List.mem_filter.mp h).2

theorem sanitize_allowed_name (name : String) (h : name ∈ ALLOWED_COMMANDS) :
    sanitize name = name := by
  simp only [ALLOWED_COMMANDS, List.mem_cons, List.mem_singleton, List.not_mem_nil,
    or_false] at h
  rcases h with h | h | h | h | h | h | h | h | h <;> subst h <;> decide

theorem mem_ALLOWED_COMMANDS_iff (name : String) :
    ALLOWED_COMMANDS.contains name = true ↔
      (name = "netstat" ∨ name = "tasklist" ∨ name = "systeminfo" ∨ name = "ipconfig" ∨
        name = "dir" ∨ name = "ping" ∨ name = "tracert" ∨ name = "route" ∨ name = "arp") := by
  simp [ALLOWED_COMMANDS]

theorem commandListener_of_valid (env : Collaborators) (cmd : Command)
    (h : validateCommand env.validateSignature cmd = true) :
    commandListener env cmd =
      [Effect.createProcess (buildSecureCommandLine cmd),
       Effect.sendToServer (env.encryptData (env.runProcess (buildSecureCommandLine cmd)))] := by
  simp [commandListener, execute, h]

theorem commandListener_of_invalid (env : Collaborators) (cmd : Command)
    (h : validateCommand env.validateSignature cmd = false) :
    commandListener env cmd = [] := by
  simp [commandListener, h]

/-! ## The command path -/

/-- C2: the listener hands a received command to the executor exactly when
`validateCommand` accepts it; `validateCommand` accepts it exactly when the
base command is, character for character, one of the nine whitelisted names
and `validateSignature` accepts the signature; for any other command the
listener does nothing at all.  Upper case spellings are not whitelisted. -/
theorem command_executed_iff_validated (env : Collaborators) (cmd : Command) :
    (handedToExecutor env cmd = true ↔ validateCommand env.validateSignature cmd = true) ∧
    (validateCommand env.validateSignature cmd = true ↔
      (cmd.baseCommand = "netstat" ∨ cmd.baseCommand = "tasklist" ∨
        cmd.baseCommand = "systeminfo" ∨ cmd.baseCommand = "ipconfig" ∨
        cmd.baseCommand = "dir" ∨ cmd.baseCommand = "ping" ∨
        cmd.baseCommand = "tracert" ∨ cmd.baseCommand = "route" ∨
        cmd.baseCommand = "arp") ∧
      env.validateSignature cmd.signature = true) ∧
    ((ALLOWED_COMMANDS.contains cmd.baseCommand = false ∨
        env.validateSignature cmd.signature = false) →
      commandListener env cmd = [] ∧ handedToExecutor env cmd = false) ∧
    validateCommand (fun _ => true) ⟨"PING", cmd.arguments, cmd.signature⟩ = false := by
  refine ⟨?_, ?_, ?_, ?_⟩
  · cases h : validateCommand env.validateSignature cmd
    · simp [handedToExecutor, commandListener_of_invalid env cmd h]
    · simp [handedToExecutor, commandListener_of_valid env cmd h]
  · simp only [validateCommand, Bool.and_eq_true, mem_ALLOWED_COMMANDS_iff]
  · intro h
    have hv : validateCommand env.validateSignature cmd = false := by
      unfold validateCommand
      rcases h with h | h
      · rw [h, Bool.false_and]
      · rw [h, Bool.and_false]
    simp [handedToExecutor, commandListener_of_invalid env cmd hv]
  · simp [validateCommand, ALLOWED_COMMANDS]

/-- C2, at a concrete command: `ping` with an accepted signature is run, and
the same command is not run when the signature check rejects it. -/
theorem command_executed_iff_validated_witness :
    commandListener ⟨fun s => s == "ok", fun _ => ⟨"", 0, ""⟩, fun r => r.output⟩
        ⟨"format", "c:", "ok"⟩ = [] ∧
    handedToExecutor ⟨fun s => s == "ok", fun _ => ⟨"", 0, ""⟩, fun r => r.output⟩
        ⟨"format", "c:", "ok"⟩ = false :=
  (command_executed_iff_validated
    ⟨fun s => s == "ok", fun _ => ⟨"", 0, ""⟩, fun r => r.output⟩
    ⟨"format", "c:", "ok"⟩).2.2.1 (Or.inl (by decide))

/-- C5: the command line is `baseCommand + " " + arguments` filtered, in order,
by the character class of the specification (ASCII letters, ASCII digits,
space, `-`, `/`, `.`, `:`), and so contains none of the shell metacharacters
`& | ; < > " ' backquote $ % ^ ( )` nor a newline. -/
theorem buildSecureCommandLine_filters (cmd : Command) :
    buildSecureCommandLine cmd =
      String.mk ((cmd.baseCommand ++ " " ++ cmd.arguments).data.filter isAllowedCharacter) ∧
    List.Sublist (buildSecureCommandLine cmd).data
      (cmd.baseCommand ++ " " ++ cmd.arguments).data ∧
    ∀ c ∈ shellMetacharacters, c ∉ (buildSecureCommandLine cmd).data := by
  have hfun : sanitizeKeeps = isAllowedCharacter := funext sanitizeKeeps_eq_isAllowedCharacter
  refine ⟨?_, ?_, ?_⟩
  · apply String.ext
    simp only [buildSecureCommandLine, sanitize_data, hfun]
  · simp only [buildSecureCommandLine, sanitize_data]
    exact List.filter_sublist _
  · intro c hc hmem
    have hk := mem_sanitize_keeps _ c hmem
    have hno : ∀ m ∈ shellMetacharacters, sanitizeKeeps m = false := by decide
    rw [hno c hc] at hk
    exact Bool.false_ne_true hk

/-- C5, at a concrete command: the ampersand of `a&b` is not in the command
line built for `ping a&b`. -/
theorem buildSecureCommandLine_filters_witness :
    '&' ∈ shellMetacharacters ∧
    '&' ∉ (buildSecureCommandLine ⟨"ping", "a&b", "sig"⟩).data :=
  ⟨by decide, (buildSecureCommandLine_filters ⟨"ping", "a&b", "sig"⟩).2.2 '&' (by decide)⟩

/-- C7: a command made only of letters, digits, space, `-`, `/`, `.` and `:`
goes through `buildSecureCommandLine` unchanged; `validateCommand` gives the
same answer whatever the arguments are; and `ping` with the arguments
`-t -l 65500 10.0.0.1` and an accepted signature is validated and run with
exactly that command line. -/
theorem arguments_reach_command_line_verbatim :
    (∀ cmd : Command,
      (∀ c ∈ cmd.baseCommand.data, isAllowedCharacter c = true) →
      (∀ c ∈ cmd.arguments.data, isAllowedCharacter c = true) →
      buildSecureCommandLine cmd = cmd.baseCommand ++ " " ++ cmd.arguments) ∧
    (∀ (validateSignature : String → Bool) (cmd : Command) (arguments : String),
      validateCommand validateSignature { cmd with arguments := arguments } =
        validateCommand validateSignature cmd) ∧
    (∀ (env : Collaborators) (signature : String),
      env.validateSignature signature = true →
      validateCommand env.validateSignature ⟨"ping", "-t -l 65500 10.0.0.1", signature⟩ = true ∧
      Effect.createProcess "ping -t -l 65500 10.0.0.1" ∈
        commandListener env ⟨"ping", "-t -l 65500 10.0.0.1", signature⟩) := by
  refine ⟨?_, ?_, ?_⟩
  · intro cmd hb ha
    unfold buildSecureCommandLine
    apply sanitize_eq_self_of_all
    intro c hc
    rw [sanitizeKeeps_eq_isAllowedCharacter]
    simp only [String.data_append, List.mem_append] at hc
    rcases hc with (hc | hc) | hc
    · exact hb c hc
    · have : c = ' ' := by simpa using hc
      subst this
      decide
    · exact ha c hc
  · intro vs cmd arguments
    rfl
  · intro env signature hsig
    have hv : validateCommand env.validateSignature
        ⟨"ping", "-t -l 65500 10.0.0.1", signature⟩ = true := by
      simp [validateCommand, ALLOWED_COMMANDS, hsig]
    refine ⟨hv, ?_⟩
    rw [commandListener_of_valid env _ hv]
    have hline : buildSecureCommandLine ⟨"ping", "-t -l 65500 10.0.0.1", signature⟩ =
        "ping -t -l 65500 10.0.0.1" := by
      show sanitize ("ping" ++ " " ++ "-t -l 65500 10.0.0.1") = "ping -t -l 65500 10.0.0.1"
      decide
    rw [hline]
    exact List.mem_cons_self _ _

/-- C7, at a concrete command: `tracert -d -h 99 10.0.0.1` is passed on as it
is, and the smuggled `ping` options reach `CreateProcessA`. -/
theorem arguments_reach_command_line_verbatim_witness :
    buildSecureCommandLine ⟨"tracert", "-d -h 99 10.0.0.1", "sig"⟩ =
      "tracert -d -h 99 10.0.0.1" ∧
    Effect.createProcess "ping -t -l 65500 10.0.0.1" ∈
      commandListener ⟨fun _ => true, fun _ => ⟨"", 0, ""⟩, fun r => r.output⟩
        ⟨"ping", "-t -l 65500 10.0.0.1", "sig"⟩ :=
  ⟨arguments_reach_command_line_verbatim.1 ⟨"tracert", "-d -h 99 10.0.0.1", "sig"⟩
      (by decide) (by decide),
   (arguments_reach_command_line_verbatim.2.2
      ⟨fun _ => true, fun _ => ⟨"", 0, ""⟩, fun r => r.output⟩ "sig" rfl).2⟩

/-- C8: for a whitelisted base command the command line is that base command,
unchanged, then one space, then the sanitized arguments. -/
theorem whitelisted_name_survives_sanitization (cmd : Command)
    (h : cmd.baseCommand ∈ ALLOWED_COMMANDS) :
    buildSecureCommandLine cmd = cmd.baseCommand ++ " " ++ sanitize cmd.arguments := by
  unfold buildSecureCommandLine
  rw [sanitize_append, sanitize_append, sanitize_allowed_name _ h]
  have hsp : sanitize " " = " " := by decide
  rw [hsp]

/-- C8, at a concrete command: `dir` with arguments full of metacharacters. -/
theorem whitelisted_name_survives_sanitization_witness :
    "dir" ∈ ALLOWED_COMMANDS ∧
    buildSecureCommandLine ⟨"dir", "&&calc;x", "sig"⟩ = "dir" ++ " " ++ sanitize "&&calc;x" :=
  ⟨by decide, whitelisted_name_survives_sanitization ⟨"dir", "&&calc;x", "sig"⟩ (by decide)⟩

/-- C10: `sanitize` is idempotent and distributes over concatenation; its
output is never longer than its input and is a subsequence of it. -/
theorem sanitize_idempotent_and_distributes (s t : String) :
    sanitize (sanitize s) = sanitize s ∧
    sanitize (s ++ t) = sanitize s ++ sanitize t ∧
    (sanitize s).length ≤ s.length ∧
    List.Sublist (sanitize s).data s.data := by
  refine ⟨?_, sanitize_append s t, ?_, ?_⟩
  · apply String.ext
    rw [sanitize_data, sanitize_data, List.filter_filter]
    simp
  · simp only [String.length, sanitize_data]
    exact List.length_filter_le _ _
  · rw [sanitize_data]
    exact List.filter_sublist _

/-! ## The ordering of events -/

/-- C9: `operator<` is a strict weak ordering decided by the timestamps alone:
irreflexive, asymmetric, transitive; two events are incomparable exactly when
their timestamps are equal, and incomparability is transitive; changing `id`,
`type`, `description` or `severity` of an event changes no comparison. -/
theorem operator_lt_strict_weak_order :
    (∀ a : SecurityEvent, a.lt a = false) ∧
    (∀ a b : SecurityEvent, a.lt b = true → b.lt a = false) ∧
    (∀ a b c : SecurityEvent, a.lt b = true → b.lt c = true → a.lt c = true) ∧
    (∀ a b : SecurityEvent, (a.lt b = false ∧ b.lt a = false) ↔ a.timestamp = b.timestamp) ∧
    (∀ a b c : SecurityEvent, (a.lt b = false ∧ b.lt a = false) →
      (b.lt c = false ∧ c.lt b = false) → (a.lt c = false ∧ c.lt a = false)) ∧
    (∀ (a b : SecurityEvent) (id type description : String) (severity : Int),
      SecurityEvent.lt ⟨id, type, description, severity, a.timestamp⟩ b = a.lt b ∧
      b.lt ⟨id, type, description, severity, a.timestamp⟩ = b.lt a) ∧
    (∀ a b : SecurityEvent, a.lt b = decide (a.timestamp < b.timestamp)) := by
  refine ⟨?_, ?_, ?_, ?_, ?_, ?_, ?_⟩
  · intro a
    simp [SecurityEvent.lt]
  · intro a b
    simp only [SecurityEvent.lt, decide_eq_true_eq, decide_eq_false_iff_not]
    omega
  · intro a b c
    simp only [SecurityEvent.lt, decide_eq_true_eq]
    omega
  · intro a b
    simp only [SecurityEvent.lt, decide_eq_false_iff_not]
    omega
  · intro a b c
    simp only [SecurityEvent.lt, decide_eq_false_iff_not]
    omega
  · intro a b id type description severity
    exact ⟨rfl, rfl⟩
  · intro a b
    rfl

/-- C9, at concrete events: transitivity applied to timestamps 1, 2, 3. -/
theorem operator_lt_strict_weak_order_witness :
    SecurityEvent.lt ⟨"a", "scan", "", 1, 1⟩ ⟨"c", "scan", "", 1, 3⟩ = true :=
  operator_lt_strict_weak_order.2.2.1
    ⟨"a", "scan", "", 1, 1⟩ ⟨"b", "scan", "", 1, 2⟩ ⟨"c", "scan", "", 1, 3⟩
    (by decide) (by decide)

/-- C4 fails as stated: two distinct events with the same timestamp are not
ordered by `operator<` in either direction. -/
theorem operator_lt_no_tie_break :
    (⟨"first", "scan", "", 1, 5⟩ : SecurityEvent) ≠ ⟨"second", "scan", "", 1, 5⟩ ∧
    SecurityEvent.lt ⟨"first", "scan", "", 1, 5⟩ ⟨"second", "scan", "", 1, 5⟩ = false ∧
    SecurityEvent.lt ⟨"second", "scan", "", 1, 5⟩ ⟨"first", "scan", "", 1, 5⟩ = false ∧
    ¬ Xor' (SecurityEvent.lt ⟨"first", "scan", "", 1, 5⟩ ⟨"second", "scan", "", 1, 5⟩ = true)
        (SecurityEvent.lt ⟨"second", "scan", "", 1, 5⟩ ⟨"first", "scan", "", 1, 5⟩ = true) := by
  refine ⟨by decide, by decide, by decide, ?_⟩
  simp [Xor', SecurityEvent.lt]

/-- C4, amended: `operator<` orders by timestamp with no tie-break.  Of two
events with different timestamps exactly one is less than the other, the one
with the smaller timestamp; of two events with equal timestamps neither is. -/
theorem operator_lt_total_up_to_timestamp (a b : SecurityEvent) :
    (a.timestamp ≠ b.timestamp → Xor' (a.lt b = true) (b.lt a = true)) ∧
    (a.timestamp = b.timestamp → a.lt b = false ∧ b.lt a = false) ∧
    (a.lt b = true ↔ a.timestamp < b.timestamp) := by
  simp only [Xor', SecurityEvent.lt, decide_eq_true_eq, decide_eq_false_iff_not]
  refine ⟨fun h => ?_, fun h => ?_, ?_⟩
  · rcases lt_or_gt_of_ne h with h1 | h1
    · left; omega
    · right; omega
  · omega
  · trivial

/-- C4 amended, at concrete events with timestamps 5 and 7. -/
theorem operator_lt_total_up_to_timestamp_witness :
    Xor' (SecurityEvent.lt ⟨"first", "scan", "", 1, 5⟩ ⟨"second", "scan", "", 1, 7⟩ = true)
      (SecurityEvent.lt ⟨"second", "scan", "", 1, 7⟩ ⟨"first", "scan", "", 1, 5⟩ = true) :=
  (operator_lt_total_up_to_timestamp
    ⟨"first", "scan", "", 1, 5⟩ ⟨"second", "scan", "", 1, 7⟩).1 (by decide)

/-! ## The event queue -/

theorem pushHeapLoop_fuel_irrelevant (f g : Nat) (c : EventQueue) (holeIndex topIndex : Nat)
    (value : SecurityEvent) (hf : holeIndex ≤ f) (hg : holeIndex ≤ g) :
    pushHeapLoop f c holeIndex topIndex value = pushHeapLoop g c holeIndex topIndex value := by
  induction f generalizing g c holeIndex with
  | zero =>
    have h0 : holeIndex = 0 := Nat.le_zero.mp hf
    subst h0
    cases g with
    | zero => rfl
    | succ g => simp [pushHeapLoop]
  | succ f ih =>
    cases g with
    | zero =>
      have h0 : holeIndex = 0 := Nat.le_zero.mp hg
      subst h0
      simp [pushHeapLoop]
    | succ g =>
      simp only [pushHeapLoop]
      by_cases hc : (decide (topIndex < holeIndex) &&
          (c.getD ((holeIndex - 1) / 2) value).lt value) = true
      · rw [if_pos hc, if_pos hc]
        have hpos : topIndex < holeIndex := by
          simp only [Bool.and_eq_true, decide_eq_true_eq] at hc
          exact hc.1
        apply ih
        · omega
        · omega
      · rw [if_neg hc, if_neg hc]

/-- The fuel of `pushHeap` is enough: more of it changes nothing. -/
theorem pushHeapLoop_fuel (f : Nat) (c : EventQueue) (holeIndex topIndex : Nat)
    (value : SecurityEvent) (hf : holeIndex ≤ f) :
    pushHeapLoop f c holeIndex topIndex value = pushHeap c holeIndex topIndex value :=
  pushHeapLoop_fuel_irrelevant f holeIndex c holeIndex topIndex value hf (le_refl _)

/-- The fuel of the loop of `adjustHeap` is enough: any two amounts that cover
the distance from `secondChild` to `(len - 1) / 2` give the same result. -/
theorem adjustHeapLoop_fuel_irrelevant (f g : Nat) (c : EventQueue)
    (holeIndex secondChild len : Nat) (value : SecurityEvent)
    (hf : (len - 1) / 2 ≤ secondChild + f) (hg : (len - 1) / 2 ≤ secondChild + g) :
    adjustHeapLoop f c holeIndex secondChild len value =
      adjustHeapLoop g c holeIndex secondChild len value := by
  induction f generalizing g c holeIndex secondChild with
  | zero =>
    cases g with
    | zero => rfl
    | succ g =>
      have hn : ¬ secondChild < (len - 1) / 2 := by omega
      simp [adjustHeapLoop, hn]
  | succ f ih =>
    cases g with
    | zero =>
      have hn : ¬ secondChild < (len - 1) / 2 := by omega
      simp [adjustHeapLoop, hn]
    | succ g =>
      simp only [adjustHeapLoop]
      by_cases hc : secondChild < (len - 1) / 2
      · rw [if_pos hc, if_pos hc]
        by_cases hl : (c.getD (2 * (secondChild + 1)) value).lt
            (c.getD (2 * (secondChild + 1) - 1) value) = true
        · simp only [hl, if_true]
          apply ih <;> omega
        · have hl2 : (c.getD (2 * (secondChild + 1)) value).lt
              (c.getD (2 * (secondChild + 1) - 1) value) = false := by simpa using hl
          simp only [hl2, Bool.false_eq_true, if_false]
          apply ih <;> omega
      · rw [if_neg hc, if_neg hc]

/-- C1: pushing an event with timestamp 1 and then one with timestamp 2 into
the queue and emptying it from the top hands out the later event first, which
is not non-decreasing timestamp order; three events arriving with timestamps
3, 1, 2 come out as 3, 2, 1. -/
theorem eventQueue_not_min_first :
    EventQueue.drain
        (EventQueue.pushAll [⟨"e1", "scan", "", 1, 1⟩, ⟨"e2", "scan", "", 1, 2⟩]) =
      [⟨"e2", "scan", "", 1, 2⟩, ⟨"e1", "scan", "", 1, 1⟩] ∧
    ¬ List.Pairwise (fun a b : SecurityEvent => a.timestamp ≤ b.timestamp)
        (EventQueue.drain
          (EventQueue.pushAll [⟨"e1", "scan", "", 1, 1⟩, ⟨"e2", "scan", "", 1, 2⟩])) ∧
    (EventQueue.drain
        (EventQueue.pushAll [⟨"x", "scan", "", 1, 3⟩, ⟨"y", "scan", "", 1, 1⟩,
          ⟨"z", "scan", "", 1, 2⟩])).map SecurityEvent.timestamp = [3, 2, 1] := by
  refine ⟨?_, ?_, ?_⟩ <;> decide

/-! ## The detection engine -/

/-- C3: rule R1 (severity 8, pattern `port:4444`) is put into the rule set of
a fresh engine; `analyzeTraffic` on a packet to port 4444 then does nothing:
the engine comes back as it was, and the function returns nothing, so no
`SecurityEvent` comes out of it. -/
theorem analyzeTraffic_scenario_A_no_event :
    IDSEngine.addRule (fun _ => true) IDSEngine.new
        ⟨"R1", "reverse shell port", 8, "port:4444"⟩ =
      Except.ok ⟨[⟨"R1", "reverse shell port", 8, "port:4444"⟩]⟩ ∧
    IDSEngine.analyzeTraffic ⟨[⟨"R1", "reverse shell port", 8, "port:4444"⟩]⟩
        ⟨[], "10.0.0.9", "10.0.0.5", 51000, 4444, "tcp"⟩ =
      ⟨[⟨"R1", "reverse shell port", 8, "port:4444"⟩]⟩ := by
  constructor
  · rfl
  · rfl

/-! ## The Correlation Engine of the specification -/

end CyberAgent
